import Mathlib

/-!
# Verification of the Citi Bike monitoring dashboard core

Shallow embedding of `src/frontend/frontend_monitor.py`: the merge/metric
engine of the monitoring dashboard.  The external data-access adapter
(`fetch_predictions`, `fetch_hourly_rides` from `src.inference`) is modelled
as a pair of function parameters from the lookback window (hours) to tabular
data.  Pandas dataframes are modelled as lists of records; `pd.merge(...,
how='inner')` as the nested-loop inner join (a cartesian product per
matching key, which is pandas' semantics); column selection, filtering and
sorting as the corresponding list operations.  `pd.to_datetime` is modelled
as the identity on an abstract, already comparable hour index (`Nat`):
the dashboard only ever uses the parsed value through its order.
Real-valued columns are modelled as `ℚ`.
-/

namespace CitiBike

/-- A row of the dataframe returned by `fetch_predictions(hours)`:
columns `pickup_location_id`, `pickup_hour`, `predicted_demand`. -/
structure PredRow where
  pickup_location_id : Nat
  pickup_hour : Nat
  predicted_demand : ℚ
deriving DecidableEq, Repr

/-- A row of the dataframe returned by `fetch_hourly_rides(hours)`:
columns `pickup_location_id`, `pickup_hour`, `rides`. -/
structure ObsRow where
  pickup_location_id : Nat
  pickup_hour : Nat
  rides : ℤ
deriving DecidableEq, Repr

/-- A row of the merged dataframe produced by
`pd.merge(df_pred, df_obs, on=['pickup_location_id','pickup_hour'], how='inner')`:
the join keys plus the non-key columns of both sides. -/
structure MergedRow where
  pickup_location_id : Nat
  pickup_hour : Nat
  predicted_demand : ℚ
  rides : ℤ
deriving DecidableEq, Repr

/-- The join key of a prediction row. -/
def pkey (p : PredRow) : Nat × Nat := (p.pickup_location_id, p.pickup_hour)

/-- The join key of an observation row. -/
def okey (o : ObsRow) : Nat × Nat := (o.pickup_location_id, o.pickup_hour)

/-- `pd.merge(df_pred, df_obs, on=['pickup_location_id','pickup_hour'], how='inner')`:
every pair of rows agreeing on both key columns yields one output row. -/
def merge (df_pred : List PredRow) (df_obs : List ObsRow) : List MergedRow :=
  df_pred.flatMap fun p =>
    (df_obs.filter fun o =>
        decide (o.pickup_location_id = p.pickup_location_id ∧
                o.pickup_hour = p.pickup_hour)).map fun o =>
      { pickup_location_id := p.pickup_location_id
        pickup_hour := p.pickup_hour
        predicted_demand := p.predicted_demand
        rides := o.rides }

/-- `Series.unique().tolist()`: distinct values in order of first occurrence. -/
def pandasUnique (l : List Nat) : List Nat :=
  l.foldl (fun acc a => if a ∈ acc then acc else acc ++ [a]) []

/-- `get_station_list(hours)` (frontend_monitor.py, lines 34-39): fetch both
dataframes, inner-merge them on the key columns, and return the distinct
`pickup_location_id` values of the merged frame. -/
def get_station_list (fetch_predictions : Nat → List PredRow)
    (fetch_hourly_rides : Nat → List ObsRow) (hours : Nat) : List Nat :=
  let dp := fetch_predictions hours
  let dr := fetch_hourly_rides hours
  let merged := merge dp dr
  pandasUnique (merged.map fun r => r.pickup_location_id)

/-- `df['timestamp'] = pd.to_datetime(df['pickup_hour'])`: the parse is
modelled as the identity on the abstract hour index. -/
def timestamp (r : MergedRow) : Nat := r.pickup_hour

/-- Comparison of merged rows by parsed timestamp, the sort key of
`df.sort_values('timestamp')`. -/
def hourLE (a b : MergedRow) : Prop := timestamp a ≤ timestamp b

instance : DecidableRel hourLE := fun a b =>
  inferInstanceAs (Decidable (timestamp a ≤ timestamp b))

instance : IsTotal MergedRow hourLE := ⟨fun _ _ => Nat.le_total _ _⟩

instance : IsTrans MergedRow hourLE := ⟨fun _ _ _ hab hbc => Nat.le_trans hab hbc⟩

/-- `load_station_data(station_id, hours)` (frontend_monitor.py, lines
45-57): fetch both dataframes, inner-merge on the key columns, filter to the
selected station, and sort ascending by the parsed timestamp
(`df.sort_values('timestamp')` is a stable ascending sort, modelled by
insertion sort on `hourLE`). -/
def load_station_data (fetch_predictions : Nat → List PredRow)
    (fetch_hourly_rides : Nat → List ObsRow)
    (station_id : Nat) (hours : Nat) : List MergedRow :=
  let df_pred := fetch_predictions hours
  let df_obs := fetch_hourly_rides hours
  let df := merge df_pred df_obs
  let df := df.filter fun r => decide (r.pickup_location_id = station_id)
  List.insertionSort hourLE df

/-- `data['error'] = (data['predicted_demand'] - data['rides']).abs()`
(frontend_monitor.py, line 65), for one row. -/
def error_col (r : MergedRow) : ℚ := |r.predicted_demand - (r.rides : ℚ)|

/-- The three metrics rendered by the dashboard (lines 69-73):
`avg_error = data['error'].mean()`, `data['error'].max()`, `len(data)`. -/
structure Summary where
  avg_error : ℚ
  max_error : ℚ
  count : Nat
deriving DecidableEq, Repr

/-- One dashboard refresh cycle (frontend_monitor.py, lines 59-73): load the
station data; if the frame is empty, warn and `st.stop()` (modelled as
`none`); otherwise compute the error column and the three metrics.
`Series.mean()` is sum divided by length and `Series.max()` the greatest
element; the `data.empty` guard makes the frame non-empty at both calls, so
the `WithBot` default of `max_error` is never reached. -/
def monitor_cycle (fetch_predictions : Nat → List PredRow)
    (fetch_hourly_rides : Nat → List ObsRow)
    (station_id : Nat) (hours : Nat) : Option (List MergedRow × Summary) :=
  let data := load_station_data fetch_predictions fetch_hourly_rides station_id hours
  if data.isEmpty then
    none
  else
    let errors := data.map error_col
    some (data,
      { avg_error := errors.sum / (errors.length : ℚ)
        max_error := errors.maximum.unbot' 0
        count := data.length })

/-! ## Concrete fixtures

Small synthetic datasets (Scenario A of the spec and variants) used to
instantiate the theorems below at concrete inputs. -/

/-- Scenario A predictions: station 1 at hours 1 and 2. -/
def predFixA : List PredRow := [⟨1, 1, 4⟩, ⟨1, 2, 6⟩]

/-- Scenario A observations: station 1 at hours 1 and 2. -/
def obsFixA : List ObsRow := [⟨1, 1, 5⟩, ⟨1, 2, 3⟩]

/-- A constant prediction adapter returning Scenario A for every window. -/
def fetchPredA : Nat → List PredRow := fun _ => predFixA

/-- A constant observation adapter returning Scenario A for every window. -/
def fetchObsA : Nat → List ObsRow := fun _ => obsFixA

/-- The merged frame of Scenario A for station 1. -/
def dataFixA : List MergedRow := [⟨1, 1, 4, 5⟩, ⟨1, 2, 6, 3⟩]

/-- The first merged record of Scenario A. -/
def rowFixA : MergedRow := ⟨1, 1, 4, 5⟩

/-- A prediction adapter whose datasets are empty for every window. -/
def fetchPredEmpty : Nat → List PredRow := fun _ => []

/-- An observation adapter whose datasets are empty for every window. -/
def fetchObsEmpty : Nat → List ObsRow := fun _ => []

/-! ## Helper lemmas -/

/-- Membership in the accumulator-based first-occurrence deduplication. -/
lemma mem_pandasUnique_foldl (l acc : List Nat) (s : Nat) :
    s ∈ l.foldl (fun acc a => if a ∈ acc then acc else acc ++ [a]) acc ↔
      s ∈ acc ∨ s ∈ l := by
  induction l generalizing acc with
  | nil => simp
  | cons a l ih =>
    simp only [List.foldl_cons, List.mem_cons]
    rw [ih]
    by_cases h : a ∈ acc
    · simp only [if_pos h]
      constructor
      · rintro (hs | hs)
        · exact Or.inl hs
        · exact Or.inr (Or.inr hs)
      · rintro (hs | hs | hs)
        · exact Or.inl hs
        · exact Or.inl (hs ▸ h)
        · exact Or.inr hs
    · simp only [if_neg h, List.mem_append, List.mem_singleton]
      tauto

/-- `pandasUnique` preserves membership. -/
lemma mem_pandasUnique (l : List Nat) (s : Nat) :
    s ∈ pandasUnique l ↔ s ∈ l := by
  unfold pandasUnique
  rw [mem_pandasUnique_foldl]
  simp

/-- Characterisation of membership in the inner merge. -/
lemma mem_merge (dp : List PredRow) (dr : List ObsRow) (r : MergedRow) :
    r ∈ merge dp dr ↔ ∃ p ∈ dp, ∃ o ∈ dr,
      o.pickup_location_id = p.pickup_location_id ∧ o.pickup_hour = p.pickup_hour ∧
      r = { pickup_location_id := p.pickup_location_id
            pickup_hour := p.pickup_hour
            predicted_demand := p.predicted_demand
            rides := o.rides } := by
  simp only [merge, List.mem_flatMap, List.mem_map, List.mem_filter,
    decide_eq_true_eq]
  constructor
  · rintro ⟨p, hp, o, ⟨ho, h1, h2⟩, rfl⟩
    exact ⟨p, hp, o, ho, h1, h2, rfl⟩
  · rintro ⟨p, hp, o, ho, h1, h2, rfl⟩
    exact ⟨p, hp, o, ⟨ho, h1, h2⟩, rfl⟩

/-- A key `(s, h)` is covered by the merge iff both inputs carry it. -/
lemma exists_merge_key_iff (dp : List PredRow) (dr : List ObsRow) (s h : Nat) :
    (∃ r ∈ merge dp dr, r.pickup_location_id = s ∧ r.pickup_hour = h) ↔
      ((∃ p ∈ dp, p.pickup_location_id = s ∧ p.pickup_hour = h) ∧
       (∃ o ∈ dr, o.pickup_location_id = s ∧ o.pickup_hour = h)) := by
  constructor
  · rintro ⟨r, hr, hs, hh⟩
    rw [mem_merge] at hr
    obtain ⟨p, hp, o, ho, h1, h2, rfl⟩ := hr
    exact ⟨⟨p, hp, hs, hh⟩, ⟨o, ho, h1.trans hs, h2.trans hh⟩⟩
  · rintro ⟨⟨p, hp, hps, hph⟩, ⟨o, ho, hos, hoh⟩⟩
    refine ⟨{ pickup_location_id := p.pickup_location_id
              pickup_hour := p.pickup_hour
              predicted_demand := p.predicted_demand
              rides := o.rides }, ?_, hps, hph⟩
    rw [mem_merge]
    exact ⟨p, hp, o, ho, hos.trans hps.symm, hoh.trans hph.symm, rfl⟩

/-- Membership in `load_station_data`: exactly the merged rows of the
selected station (sorting permutes, filtering selects). -/
lemma mem_load_station_data (fp : Nat → List PredRow) (fo : Nat → List ObsRow)
    (s w : Nat) (r : MergedRow) :
    r ∈ load_station_data fp fo s w ↔
      r ∈ merge (fp w) (fo w) ∧ r.pickup_location_id = s := by
  unfold load_station_data
  rw [(List.perm_insertionSort hourLE _).mem_iff, List.mem_filter]
  simp [decide_eq_true_eq]

/-- Membership in `get_station_list`: exactly the stations of merged rows. -/
lemma mem_get_station_list (fp : Nat → List PredRow) (fo : Nat → List ObsRow)
    (w s : Nat) :
    s ∈ get_station_list fp fo w ↔
      ∃ r ∈ merge (fp w) (fo w), r.pickup_location_id = s := by
  unfold get_station_list
  rw [mem_pandasUnique]
  simp [List.mem_map, eq_comm]

/-- A filter whose predicate pins the value of `f` keeps at most one element
of a list whose `f`-image has no duplicates. -/
lemma length_filter_key_le_one {α β : Type} [DecidableEq β] (f : α → β) (k : β)
    (p : α → Bool) (hp : ∀ a, p a = true → f a = k) :
    ∀ l : List α, (l.map f).Nodup → (l.filter p).length ≤ 1 := by
  intro l
  induction l with
  | nil => intro _; simp
  | cons a l ih =>
    intro hnd
    rw [List.map_cons, List.nodup_cons] at hnd
    by_cases ha : p a = true
    · have hl : l.filter p = [] := by
        rw [List.filter_eq_nil_iff]
        intro b hb hpb
        exact hnd.1 (List.mem_map.mpr ⟨b, hb, (hp b hpb).trans (hp a ha).symm⟩)
      simp [List.filter_cons, ha, hl]
    · simp only [List.filter_cons, if_neg ha]
      exact ih hnd.2

/-- The length of a filtered list as a sum of indicator values. -/
lemma length_filter_eq_sum_ite {β : Type} (p : β → Bool) (l : List β) :
    (l.filter p).length = (l.map fun b => if p b then 1 else 0).sum := by
  induction l with
  | nil => rfl
  | cons b l ih =>
    by_cases h : p b = true
    · simp [List.filter_cons, h, ih, Nat.add_comm]
    · simp [List.filter_cons, h, ih]

/-- Double counting of matching pairs: summing match counts over the left
list equals summing them over the right list. -/
lemma sum_filter_swap {α β : Type} (R : α → β → Bool) :
    ∀ (l1 : List α) (l2 : List β),
      (l1.map fun a => (l2.filter (R a)).length).sum =
      (l2.map fun b => (l1.filter fun a => R a b).length).sum := by
  intro l1
  induction l1 with
  | nil => intro l2; simp
  | cons a l1 ih =>
    intro l2
    simp only [List.map_cons, List.sum_cons, ih, List.filter_cons]
    rw [length_filter_eq_sum_ite]
    have hmap : (l2.map fun b =>
        (if R a b = true then a :: l1.filter (fun a => R a b)
         else l1.filter (fun a => R a b)).length) =
        l2.map fun b =>
          (if R a b = true then 1 else 0) + (l1.filter fun a => R a b).length := by
      refine List.map_congr_left ?_
      intro b _
      by_cases h : R a b = true
      · simp [h, Nat.add_comm]
      · simp [h]
    rw [hmap, List.sum_map_add]

/-- The merge length written as a sum over the prediction rows. -/
lemma merge_length_eq_sum (dp : List PredRow) (dr : List ObsRow) :
    (merge dp dr).length =
      (dp.map fun p => (dr.filter fun o =>
        decide (o.pickup_location_id = p.pickup_location_id ∧
                o.pickup_hour = p.pickup_hour)).length).sum := by
  unfold merge
  rw [List.length_flatMap]
  simp [Function.comp_def, List.length_map]

/-- A sum of list entries each at most one is at most the list length. -/
lemma sum_le_length_of_le_one (l : List Nat) (h : ∀ x ∈ l, x ≤ 1) :
    l.sum ≤ l.length := by
  calc l.sum ≤ l.length • 1 := List.sum_le_card_nsmul l 1 h
    _ = l.length := by simp

/-- With duplicate-free observation keys, the merge has at most one row per
prediction row. -/
lemma merge_length_le_left (dp : List PredRow) (dr : List ObsRow)
    (hdr : (dr.map okey).Nodup) :
    (merge dp dr).length ≤ dp.length := by
  rw [merge_length_eq_sum]
  have hb : ∀ x ∈ dp.map fun p => (dr.filter fun o =>
      decide (o.pickup_location_id = p.pickup_location_id ∧
              o.pickup_hour = p.pickup_hour)).length, x ≤ 1 := by
    intro x hx
    rw [List.mem_map] at hx
    obtain ⟨p, _, rfl⟩ := hx
    refine length_filter_key_le_one okey (pkey p) _ ?_ dr hdr
    intro o ho
    rw [decide_eq_true_eq] at ho
    simp [okey, pkey, Prod.ext_iff]
    exact ho
  calc _ ≤ (dp.map fun p => (dr.filter fun o =>
        decide (o.pickup_location_id = p.pickup_location_id ∧
                o.pickup_hour = p.pickup_hour)).length).length :=
      sum_le_length_of_le_one _ hb
    _ = dp.length := List.length_map _ _

/-- With duplicate-free prediction keys, the merge has at most one row per
observation row. -/
lemma merge_length_le_right (dp : List PredRow) (dr : List ObsRow)
    (hdp : (dp.map pkey).Nodup) :
    (merge dp dr).length ≤ dr.length := by
  rw [merge_length_eq_sum,
    sum_filter_swap (fun p o =>
      decide (o.pickup_location_id = p.pickup_location_id ∧
              o.pickup_hour = p.pickup_hour)) dp dr]
  have hb : ∀ x ∈ dr.map fun o => (dp.filter fun p =>
      decide (o.pickup_location_id = p.pickup_location_id ∧
              o.pickup_hour = p.pickup_hour)).length, x ≤ 1 := by
    intro x hx
    rw [List.mem_map] at hx
    obtain ⟨o, _, rfl⟩ := hx
    refine length_filter_key_le_one pkey (okey o) _ ?_ dp hdp
    intro p hp
    rw [decide_eq_true_eq] at hp
    simp [okey, pkey, Prod.ext_iff]
    exact ⟨hp.1.symm, hp.2.symm⟩
  calc _ ≤ (dr.map fun o => (dp.filter fun p =>
        decide (o.pickup_location_id = p.pickup_location_id ∧
                o.pickup_hour = p.pickup_hour)).length).length :=
      sum_le_length_of_le_one _ hb
    _ = dr.length := List.length_map _ _

/-- Hour coverage of `load_station_data`: an hour is covered for station `s`
iff both fetched datasets carry the key `(s, h)`. -/
lemma exists_load_key_iff (fp : Nat → List PredRow) (fo : Nat → List ObsRow)
    (s w h : Nat) :
    (∃ r ∈ load_station_data fp fo s w, r.pickup_hour = h) ↔
      ((∃ p ∈ fp w, p.pickup_location_id = s ∧ p.pickup_hour = h) ∧
       (∃ o ∈ fo w, o.pickup_location_id = s ∧ o.pickup_hour = h)) := by
  rw [← exists_merge_key_iff]
  constructor
  · rintro ⟨r, hr, hh⟩
    rw [mem_load_station_data] at hr
    exact ⟨r, hr.1, hr.2, hh⟩
  · rintro ⟨r, hr, hs, hh⟩
    exact ⟨r, (mem_load_station_data fp fo s w r).mpr ⟨hr, hs⟩, hh⟩

/-- The cycle aborts (warning, `st.stop()`) exactly when the loaded frame is
empty. -/
lemma monitor_cycle_isSome_iff (fp : Nat → List PredRow)
    (fo : Nat → List ObsRow) (s w : Nat) :
    (monitor_cycle fp fo s w).isSome ↔ load_station_data fp fo s w ≠ [] := by
  unfold monitor_cycle
  by_cases h : load_station_data fp fo s w = [] <;>
    simp [h, List.isEmpty_iff]

/-- On an empty loaded frame the cycle stops without a summary. -/
lemma monitor_cycle_eq_none (fp : Nat → List PredRow)
    (fo : Nat → List ObsRow) (s w : Nat)
    (hE : load_station_data fp fo s w = []) :
    monitor_cycle fp fo s w = none := by
  simp [monitor_cycle, hE]

/-- On a non-empty loaded frame the cycle produces exactly the mean, max and
count of the error column. -/
lemma monitor_cycle_eq_some (fp : Nat → List PredRow)
    (fo : Nat → List ObsRow) (s w : Nat) (data : List MergedRow)
    (h1 : load_station_data fp fo s w = data) (h2 : data ≠ []) :
    monitor_cycle fp fo s w = some (data,
      { avg_error := (data.map error_col).sum / ((data.map error_col).length : ℚ)
        max_error := (data.map error_col).maximum.unbot' 0
        count := data.length }) := by
  unfold monitor_cycle
  rw [h1]
  simp [List.isEmpty_iff, h2]

/-- For a non-empty list of rationals, `maximum.unbot' 0` is an element and
an upper bound. -/
lemma maximum_unbot_spec (l : List ℚ) (hl : l ≠ []) :
    l.maximum.unbot' 0 ∈ l ∧ ∀ e ∈ l, e ≤ l.maximum.unbot' 0 := by
  obtain ⟨m, hm⟩ := WithBot.ne_bot_iff_exists.mp (List.maximum_ne_bot_of_ne_nil hl)
  have h := List.maximum_eq_coe_iff.mp hm.symm
  rw [← hm, WithBot.unbot'_coe]
  exact h

/-! ## Claim theorems -/

/-- C1: for every pair of observed and predicted datasets, the inner join
performed by `load_station_data` contains a record for key `(s, h)` iff both
the predicted and the observed dataset contain a row with
`station_id = s` and `hour = h`; keys present in only one dataset are
dropped. -/
theorem join_key_coverage_iff (dp : List PredRow) (dr : List ObsRow)
    (s h : Nat) :
    (∃ r ∈ merge dp dr, r.pickup_location_id = s ∧ r.pickup_hour = h) ↔
      ((∃ p ∈ dp, p.pickup_location_id = s ∧ p.pickup_hour = h) ∧
       (∃ o ∈ dr, o.pickup_location_id = s ∧ o.pickup_hour = h)) :=
  exists_merge_key_iff dp dr s h

/-- C2: for the non-empty filtered series of the selected station, the
reported Average Error is the arithmetic mean of the per-row absolute
errors, the reported Max Error is their maximum (an element and an upper
bound), and the reported Data Points count is the number of rows. -/
theorem summary_metrics_correct (fp : Nat → List PredRow)
    (fo : Nat → List ObsRow) (s w : Nat) (data : List MergedRow)
    (h1 : load_station_data fp fo s w = data) (h2 : data ≠ []) :
    ∃ sm : Summary, monitor_cycle fp fo s w = some (data, sm) ∧
      sm.avg_error = (data.map error_col).sum / (data.length : ℚ) ∧
      sm.max_error ∈ data.map error_col ∧
      (∀ e ∈ data.map error_col, e ≤ sm.max_error) ∧
      sm.count = data.length := by
  have hmap : data.map error_col ≠ [] := by
    simpa [List.map_eq_nil_iff] using h2
  obtain ⟨hmem, hub⟩ := maximum_unbot_spec (data.map error_col) hmap
  refine ⟨_, monitor_cycle_eq_some fp fo s w data h1 h2, ?_, hmem, hub, rfl⟩
  simp [List.length_map]

/-- Witness for C2: Scenario A at station 1 and a 24 hour window. -/
theorem summary_metrics_correct_witness :
    load_station_data fetchPredA fetchObsA 1 24 = dataFixA ∧ dataFixA ≠ [] ∧
      ∃ sm : Summary, monitor_cycle fetchPredA fetchObsA 1 24 =
          some (dataFixA, sm) ∧
        sm.avg_error = (dataFixA.map error_col).sum / (dataFixA.length : ℚ) ∧
        sm.max_error ∈ dataFixA.map error_col ∧
        (∀ e ∈ dataFixA.map error_col, e ≤ sm.max_error) ∧
        sm.count = dataFixA.length :=
  ⟨by decide, by decide,
    summary_metrics_correct fetchPredA fetchObsA 1 24 dataFixA
      (by decide) (by decide)⟩

/-- C3: every record of the loaded station frame has error column equal to
the absolute difference of predicted demand and rides, hence
non-negative. -/
theorem error_abs_nonneg (fp : Nat → List PredRow) (fo : Nat → List ObsRow)
    (s w : Nat) (r : MergedRow)
    (_hr : r ∈ load_station_data fp fo s w) :
    error_col r = |r.predicted_demand - (r.rides : ℚ)| ∧ 0 ≤ error_col r :=
  ⟨rfl, abs_nonneg _⟩

/-- Witness for C3: the first merged record of Scenario A. -/
theorem error_abs_nonneg_witness :
    rowFixA ∈ load_station_data fetchPredA fetchObsA 1 24 ∧
      error_col rowFixA =
        |rowFixA.predicted_demand - (rowFixA.rides : ℚ)| ∧
      0 ≤ error_col rowFixA :=
  ⟨by decide, error_abs_nonneg fetchPredA fetchObsA 1 24 rowFixA (by decide)⟩

/-- C4: for every station, window and pair of fetched datasets, the sequence
returned by `load_station_data` is non-decreasing in the parsed hour
timestamp. -/
theorem load_station_data_sorted_by_timestamp (fp : Nat → List PredRow)
    (fo : Nat → List ObsRow) (s w : Nat) :
    List.Sorted hourLE (load_station_data fp fo s w) := by
  unfold load_station_data
  exact List.sorted_insertionSort hourLE _

/-- C5: if the join and station filter yield zero rows, the cycle reports
emptiness and stops: no summary (neither mean nor max) is computed. -/
theorem empty_result_no_summary (fp : Nat → List PredRow)
    (fo : Nat → List ObsRow) (s w : Nat)
    (hE : load_station_data fp fo s w = []) :
    monitor_cycle fp fo s w = none :=
  monitor_cycle_eq_none fp fo s w hE

/-- Witness for C5: Scenario A data but station 2, which has no rows. -/
theorem empty_result_no_summary_witness :
    load_station_data fetchPredA fetchObsA 2 24 = [] ∧
      monitor_cycle fetchPredA fetchObsA 2 24 = none :=
  ⟨by decide, empty_result_no_summary fetchPredA fetchObsA 2 24 (by decide)⟩

/-- C6 counterexample: the claim says that on an empty filtered set the
source still computes the mean and max (lacking an empty-check guard).  At
the concrete input below the filtered set is empty and the cycle produces
no summary at all: the `data.empty` guard at lines 60-62 warns and stops
before any metric is computed. -/
theorem empty_guard_counterexample :
    load_station_data fetchPredEmpty fetchObsEmpty 3 12 = [] ∧
      monitor_cycle fetchPredEmpty fetchObsEmpty 3 12 = none :=
  ⟨by decide, by decide⟩

/-- C6 amended: the source has an explicit `data.empty` guard, so a summary
is computed exactly when the filtered result set is non-empty; on an empty
set the cycle stops and neither mean nor max is evaluated. -/
theorem summary_iff_nonempty_guard (fp : Nat → List PredRow)
    (fo : Nat → List ObsRow) (s w : Nat) :
    (monitor_cycle fp fo s w).isSome ↔ load_station_data fp fo s w ≠ [] :=
  monitor_cycle_isSome_iff fp fo s w

/-- C7: for datasets keyed by `(station_id, hour)` (no duplicate keys, as
the data model requires of the adapter), the inner join has at most
`min |observed| |predicted|` rows. -/
theorem join_count_le_min (dp : List PredRow) (dr : List ObsRow)
    (hdp : (dp.map pkey).Nodup) (hdr : (dr.map okey).Nodup) :
    (merge dp dr).length ≤ min dp.length dr.length :=
  le_min (merge_length_le_left dp dr hdr) (merge_length_le_right dp dr hdp)

/-- Witness for C7: Scenario A, two rows on each side, two joined rows. -/
theorem join_count_le_min_witness :
    (predFixA.map pkey).Nodup ∧ (obsFixA.map okey).Nodup ∧
      (merge predFixA obsFixA).length ≤ min predFixA.length obsFixA.length :=
  ⟨by decide, by decide,
    join_count_le_min predFixA obsFixA (by decide) (by decide)⟩

/-- C8: a station absent from the catalog of `get_station_list` for the same
window yields zero rows from `load_station_data`, and the cycle behaves
exactly as in the EmptyResult case, with no distinct signal. -/
theorem unknown_station_like_empty (fp : Nat → List PredRow)
    (fo : Nat → List ObsRow) (w s : Nat)
    (hs : s ∉ get_station_list fp fo w) :
    load_station_data fp fo s w = [] ∧ monitor_cycle fp fo s w = none := by
  have hE : load_station_data fp fo s w = [] := by
    rw [List.eq_nil_iff_forall_not_mem]
    intro r hr
    rw [mem_load_station_data] at hr
    exact hs ((mem_get_station_list fp fo w s).mpr ⟨r, hr.1, hr.2⟩)
  exact ⟨hE, monitor_cycle_eq_none fp fo s w hE⟩

/-- Witness for C8: station 7 is not in Scenario A's catalog. -/
theorem unknown_station_like_empty_witness :
    7 ∉ get_station_list fetchPredA fetchObsA 5 ∧
      load_station_data fetchPredA fetchObsA 7 5 = [] ∧
      monitor_cycle fetchPredA fetchObsA 7 5 = none :=
  ⟨by decide, unknown_station_like_empty fetchPredA fetchObsA 5 7 (by decide)⟩

/-- C9: if the adapter's fetches for the 24 hour window return supersets of
its fetches for the 1 hour window, every hour covered by
`load_station_data` at window 1 is also covered at window 24. -/
theorem window_coverage_superset (fp : Nat → List PredRow)
    (fo : Nat → List ObsRow) (s : Nat)
    (hp : ∀ p ∈ fp 1, p ∈ fp 24) (ho : ∀ o ∈ fo 1, o ∈ fo 24) (h : Nat)
    (hcov : ∃ r ∈ load_station_data fp fo s 1, r.pickup_hour = h) :
    ∃ r ∈ load_station_data fp fo s 24, r.pickup_hour = h := by
  rw [exists_load_key_iff] at hcov ⊢
  obtain ⟨⟨p, hp1, hps⟩, ⟨o, ho1, hos⟩⟩ := hcov
  exact ⟨⟨p, hp p hp1, hps⟩, ⟨o, ho o ho1, hos⟩⟩

/-- Witness for C9: the constant Scenario A adapter, station 1, hour 1. -/
theorem window_coverage_superset_witness :
    (∀ p ∈ fetchPredA 1, p ∈ fetchPredA 24) ∧
      (∀ o ∈ fetchObsA 1, o ∈ fetchObsA 24) ∧
      (∃ r ∈ load_station_data fetchPredA fetchObsA 1 1, r.pickup_hour = 1) ∧
      (∃ r ∈ load_station_data fetchPredA fetchObsA 1 24, r.pickup_hour = 1) :=
  ⟨by decide, by decide, by decide,
    window_coverage_superset fetchPredA fetchObsA 1 (by decide) (by decide) 1
      (by decide)⟩

/-- C10: every station of the catalog returned by `get_station_list` yields
a non-empty frame from `load_station_data` for the same window (the fetches
being the same pure functions in both operations), so the "no data" warning
branch is not taken. -/
theorem catalog_station_has_data (fp : Nat → List PredRow)
    (fo : Nat → List ObsRow) (w s : Nat)
    (hs : s ∈ get_station_list fp fo w) :
    load_station_data fp fo s w ≠ [] ∧ (monitor_cycle fp fo s w).isSome := by
  have hne : load_station_data fp fo s w ≠ [] := by
    obtain ⟨r, hr, hrs⟩ := (mem_get_station_list fp fo w s).mp hs
    intro hE
    have hmem : r ∈ load_station_data fp fo s w :=
      (mem_load_station_data fp fo s w r).mpr ⟨hr, hrs⟩
    rw [hE] at hmem
    exact (List.not_mem_nil r) hmem
  exact ⟨hne, (monitor_cycle_isSome_iff fp fo s w).mpr hne⟩

/-- Witness for C10: station 1 of Scenario A's catalog. -/
theorem catalog_station_has_data_witness :
    1 ∈ get_station_list fetchPredA fetchObsA 24 ∧
      load_station_data fetchPredA fetchObsA 1 24 ≠ [] ∧
      (monitor_cycle fetchPredA fetchObsA 1 24).isSome :=
  ⟨by decide, catalog_station_has_data fetchPredA fetchObsA 24 1 (by decide)⟩

end CitiBike
